import Mathlib

/-
Verification development for the NewDuckSpider crawl core.
Shallow embedding of pkg/item/item.go, pkg/item/ItemPipeline.go,
pkg/middleware/MiddlewareManager.go and the core engine worker loop.
Go machine integers only ever hold small non-negative counters and
durations here, so they are modelled as Nat (with the constructor's
clamping of negative configuration values modelled explicitly on Int
inputs); Go error values are modelled by the inductive GoErr; callback
invocations are modelled as emitted events rather than as mutations,
and asynchronous goroutine launches are modelled as emitted events.
Wall-clock timestamp fields (LastProcessTime, FetchTime bookkeeping)
carry abstract Nat tick values supplied by the environment.
-/

namespace NewDuckSpider

/-- Model of a Go interface value stored in a StrictItem's data bag. -/
inductive GoVal where
  | vstr : String → GoVal
  | vint : Int → GoVal
  | vbool : Bool → GoVal
deriving DecidableEq

/-- Model of Go error values flowing through the pipeline and middleware.
ErrPipelineClosed, ErrPipelineFull, ErrItemInvalid are the three sentinel
errors of ItemPipeline.go; msg is an application-supplied error value;
validationFailed models the wrapping fmt.Errorf of enqueueItem and
middlewareFailed the wrapping of ProcessRequest / ProcessResponse. -/
inductive GoErr where
  | pipelineClosed
  | pipelineFull
  | itemInvalid
  | msg : String → GoErr
  | validationFailed : GoErr → GoErr
  | middlewareFailed : String → GoErr → GoErr
deriving DecidableEq

/-- Provenance metadata of a StrictItem (item.go, type metadata). -/
structure Metadata where
  spiderName : String
  fetchTime : Nat
deriving DecidableEq

/-- StrictItem (item.go): a key/value bag restricted to an allow-list of
field names fixed at construction.  The Go maps are modelled as
association lists; data holds at most one binding per key. -/
structure StrictItem where
  data : List (String × GoVal)
  allowed : List String
  metadata : Metadata
deriving DecidableEq

/-- Go map assignment m[k] = v: replace the existing binding or append. -/
def mapSet (m : List (String × GoVal)) (key : String) (v : GoVal) :
    List (String × GoVal) :=
  match m with
  | [] => [(key, v)]
  | (k, w) :: rest =>
      if k = key then (k, v) :: rest else (k, w) :: mapSet rest key v

/-- Go map lookup m[k]. -/
def mapGet (m : List (String × GoVal)) (key : String) : Option GoVal :=
  match m with
  | [] => none
  | (k, w) :: rest => if k = key then some w else mapGet rest key

/-- NewStrictItem (item.go): empty data, the given allow-list, fetch time
stamped with the current tick. -/
def NewStrictItem (allowedFields : List String) (now : Nat) : StrictItem :=
  { data := []
    allowed := allowedFields
    metadata := { spiderName := "", fetchTime := now } }

/-- StrictItem.Set (item.go): reject keys outside the allow-list with a
non-nil error and leave the data untouched; otherwise store the value. -/
def StrictItem.set (s : StrictItem) (key : String) (v : GoVal) :
    Option GoErr × StrictItem :=
  if s.allowed.contains key then
    (none, { s with data := mapSet s.data key v })
  else
    (some (GoErr.msg ("字段 '" ++ key ++ "' 不在预定义字段中")), s)

/-- StrictItem.Get (item.go). -/
def StrictItem.get (s : StrictItem) (key : String) : Option GoVal :=
  mapGet s.data key

/-- PipelineConfig (ItemPipeline.go).  Sizes and durations are kept as
Nat inside the pipeline; NewItemPipeline performs the clamping of the
raw Int configuration values. -/
structure PipelineConfig where
  maxSize : Nat
  maxWaitTime : Nat
  autoFlushSize : Nat
deriving DecidableEq

/-- PipelineStats (ItemPipeline.go).  LastProcessTime is a wall-clock
timestamp and is not tracked in the model. -/
structure PipelineStats where
  totalEnqueued : Nat
  totalDequeued : Nat
  totalProcessed : Nat
  totalFailed : Nat
  currentSize : Nat
  avgProcessTime : Nat
deriving DecidableEq

/-- PipelineCallback (ItemPipeline.go): a Go callback field is either nil
or set; the model records only which callbacks are registered, and an
invocation is an emitted event. -/
structure PipelineCallback where
  onItemEnqueued : Bool
  onItemDequeued : Bool
  onItemProcessed : Bool
  onPipelineFull : Bool
  onPipelineEmpty : Bool
deriving DecidableEq

/-- Observable effects of a pipeline operation: callback invocations,
condition-variable broadcasts, and asynchronous goroutine launches. -/
inductive PEvent where
  | itemEnqueued : StrictItem → PEvent
  | itemDequeued : StrictItem → PEvent
  | itemProcessed : StrictItem → Option GoErr → PEvent
  | pipelineFull
  | pipelineEmpty
  | broadcastWaiters
  | asyncFlush
deriving DecidableEq

/-- ItemPipeline (ItemPipeline.go).  The gods linked-list queue is a List
in FIFO order (head = oldest).  batchQueue and batchSize are initialised
but never used by any method of the source file and are omitted.  The
mutex and condition variable have no explicit counterpart: operations
are modelled as atomic steps, and waits take an explicit wake trace. -/
structure Pipeline where
  queue : List StrictItem
  closed : Bool
  config : PipelineConfig
  stats : PipelineStats
  callbacks : PipelineCallback
  processor : Option (StrictItem → Option GoErr)
  processors : List (StrictItem → Option GoErr)
  validators : List (StrictItem → Option GoErr)
  filters : List (StrictItem → Bool)

/-- NewItemPipeline (ItemPipeline.go): clamp MaxSize below 0 to 0 and
AutoFlushSize at or below 0 to 10.  A negative MaxWaitTime behaves, in
the Go code, exactly like 0 (the `MaxWaitTime > 0` guard fails), which
Int.toNat reproduces. -/
def NewItemPipeline (maxSize maxWaitTime autoFlushSize : Int) : Pipeline :=
  { queue := []
    closed := false
    config :=
      { maxSize := if maxSize < 0 then 0 else maxSize.toNat
        maxWaitTime := maxWaitTime.toNat
        autoFlushSize := if autoFlushSize ≤ 0 then 10 else autoFlushSize.toNat }
    stats :=
      { totalEnqueued := 0, totalDequeued := 0, totalProcessed := 0
        totalFailed := 0, currentSize := 0, avgProcessTime := 0 }
    callbacks :=
      { onItemEnqueued := false, onItemDequeued := false
        onItemProcessed := false, onPipelineFull := false
        onPipelineEmpty := false }
    processor := none
    processors := []
    validators := []
    filters := [] }

/-- One wake-up of a goroutine blocked on the condition variable: the
tick at which it wakes and the queue contents and closed flag it then
observes (other goroutines may have mutated both while it slept). -/
structure Wake where
  time : Nat
  queue : List StrictItem
  closed : Bool
deriving DecidableEq

/-- Outcome of the capacity wait loop of enqueueItem. -/
inductive WaitOutcome where
  | proceed : Nat → List StrictItem → WaitOutcome
  | failFull : Nat → WaitOutcome
  | failClosed : Nat → WaitOutcome
  | stillWaiting

/-- The blocking capacity loop of enqueueItem (ItemPipeline.go lines
169-181): while the queue is at capacity, fail with ErrPipelineFull once
the elapsed time strictly exceeds a positive MaxWaitTime, otherwise wait
for the next wake; a wake with the closed flag set fails with
ErrPipelineClosed.  startTime is tick 0, so the elapsed time at a wake
is the wake's tick.  An exhausted wake trace means the goroutine is
still parked on the condition variable. -/
def enqueueWait (maxSize maxWaitTime : Nat) (now : Nat)
    (q : List StrictItem) (wakes : List Wake) : WaitOutcome :=
  if q.length ≥ maxSize then
    if maxWaitTime > 0 ∧ now > maxWaitTime then WaitOutcome.failFull now
    else
      match wakes with
      | [] => WaitOutcome.stillWaiting
      | w :: rest =>
          if w.closed then WaitOutcome.failClosed w.time
          else enqueueWait maxSize maxWaitTime w.time w.queue rest
  else WaitOutcome.proceed now q

/-- The validator loop of enqueueItem: run validators in registration
order and surface the first failure. -/
def firstValidationError (validators : List (StrictItem → Option GoErr))
    (it : StrictItem) : Option GoErr :=
  match validators with
  | [] => none
  | v :: rest =>
      match v it with
      | some e => some e
      | none => firstValidationError rest it

/-- The filter loop of enqueueItem: false as soon as some filter, taken
in registration order, rejects the item. -/
def filtersAccept (filters : List (StrictItem → Bool)) (it : StrictItem) :
    Bool :=
  match filters with
  | [] => true
  | f :: rest => if f it then filtersAccept rest it else false

/-- Result of an enqueue call.  retTime is the tick at which a blocking
capacity wait ended, when one did; blocked is true when the call is
still parked on the condition variable at the end of its wake trace. -/
structure EnqueueResult where
  err : Option GoErr
  state : Pipeline
  events : List PEvent
  blocked : Bool
  retTime : Option Nat

/-- The tail of enqueueItem after the capacity section (ItemPipeline.go
lines 184-216): validators, filters, the actual enqueue with stats
update, the on-enqueued callback and the auto-flush trigger.  q is the
queue observed after the capacity section (it may differ from p.queue
when a blocking wait intervened). -/
def admitItem (p : Pipeline) (q : List StrictItem) (it : StrictItem) :
    EnqueueResult :=
  match firstValidationError p.validators it with
  | some e =>
      { err := some (GoErr.validationFailed e)
        state := { p with queue := q }
        events := [], blocked := false, retTime := none }
  | none =>
      if filtersAccept p.filters it then
        let q2 := q ++ [it]
        let st :=
          { p with
            queue := q2
            stats :=
              { p.stats with
                totalEnqueued := p.stats.totalEnqueued + 1
                currentSize := q2.length } }
        let ev1 :=
          if p.callbacks.onItemEnqueued then [PEvent.itemEnqueued it] else []
        let ev2 :=
          if p.config.autoFlushSize > 0 ∧ q2.length ≥ p.config.autoFlushSize
          then [PEvent.asyncFlush] else []
        { err := none, state := st, events := ev1 ++ ev2
          blocked := false, retTime := none }
      else
        { err := none, state := { p with queue := q }
          events := [], blocked := false, retTime := none }

/-- enqueueItem (ItemPipeline.go lines 147-217): reject when closed,
reject nil items, handle a full queue (immediately in non-blocking mode,
via the condition-variable wait loop in blocking mode), then admit. -/
def enqueueItem (p : Pipeline) (item : Option StrictItem) (blocking : Bool)
    (wakes : List Wake) : EnqueueResult :=
  if p.closed then
    { err := some GoErr.pipelineClosed, state := p, events := []
      blocked := false, retTime := none }
  else
    match item with
    | none =>
        { err := some GoErr.itemInvalid, state := p, events := []
          blocked := false, retTime := none }
    | some it =>
        if p.config.maxSize > 0 ∧ p.queue.length ≥ p.config.maxSize then
          if !blocking then
            { err := some GoErr.pipelineFull, state := p
              events :=
                if p.callbacks.onPipelineFull then [PEvent.pipelineFull]
                else []
              blocked := false, retTime := none }
          else
            match enqueueWait p.config.maxSize p.config.maxWaitTime 0
                p.queue wakes with
            | WaitOutcome.failFull t =>
                { err := some GoErr.pipelineFull, state := p, events := []
                  blocked := false, retTime := some t }
            | WaitOutcome.failClosed t =>
                { err := some GoErr.pipelineClosed
                  state := { p with closed := true }, events := []
                  blocked := false, retTime := some t }
            | WaitOutcome.stillWaiting =>
                { err := none, state := p, events := []
                  blocked := true, retTime := none }
            | WaitOutcome.proceed _ q => admitItem p q it
        else admitItem p p.queue it

/-- EnqueueItem (blocking variant). -/
def EnqueueItem (p : Pipeline) (item : Option StrictItem)
    (wakes : List Wake) : EnqueueResult :=
  enqueueItem p item true wakes

/-- TryEnqueueItem (non-blocking variant; never waits, so it needs no
wake trace). -/
def TryEnqueueItem (p : Pipeline) (item : Option StrictItem) :
    EnqueueResult :=
  enqueueItem p item false []

/-- Result of a dequeue call.  blocked is true when the call is a
blocking dequeue parked on the condition variable (empty queue, not
closed); no claim exercises the continuation after such a wait, so it is
left as the blocked marker. -/
structure DequeueResult where
  item : Option StrictItem
  err : Option GoErr
  state : Pipeline
  events : List PEvent
  blocked : Bool

/-- dequeueItem (ItemPipeline.go lines 230-278): closed-and-empty fails
with ErrPipelineClosed; an empty queue returns (nil, nil) in
non-blocking mode (firing the on-empty callback) and waits in blocking
mode; otherwise the head is removed, the dequeued counter and current
size are updated and the on-dequeued callback fires.  The queue holds
only StrictItem values, so the failed-type-assertion branch
(ErrItemInvalid) is unreachable in the model. -/
def dequeueItem (p : Pipeline) (blocking : Bool) : DequeueResult :=
  if p.closed ∧ p.queue.isEmpty then
    { item := none, err := some GoErr.pipelineClosed, state := p
      events := [], blocked := false }
  else
    match p.queue with
    | [] =>
        if !blocking then
          { item := none, err := none, state := p
            events :=
              if p.callbacks.onPipelineEmpty then [PEvent.pipelineEmpty]
              else []
            blocked := false }
        else
          { item := none, err := none, state := p, events := []
            blocked := true }
    | x :: rest =>
        let st :=
          { p with
            queue := rest
            stats :=
              { p.stats with
                totalDequeued := p.stats.totalDequeued + 1
                currentSize := rest.length } }
        { item := some x, err := none, state := st
          events :=
            if p.callbacks.onItemDequeued then [PEvent.itemDequeued x]
            else []
          blocked := false }

/-- DequeueItem (blocking variant). -/
def DequeueItem (p : Pipeline) : DequeueResult :=
  dequeueItem p true

/-- TryDequeueItem (non-blocking variant). -/
def TryDequeueItem (p : Pipeline) : DequeueResult :=
  dequeueItem p false

/-- Result of Close. -/
structure CloseResult where
  err : Option GoErr
  state : Pipeline
  events : List PEvent

/-- Close (ItemPipeline.go lines 390-407): a second close is a no-op
returning nil; a first close sets the flag, broadcasts to every waiter
and, when items remain, launches an asynchronous Flush. -/
def Close (p : Pipeline) : CloseResult :=
  if p.closed then { err := none, state := p, events := [] }
  else
    { err := none
      state := { p with closed := true }
      events :=
        [PEvent.broadcastWaiters] ++
          (if p.queue.isEmpty then [] else [PEvent.asyncFlush]) }

/-- Iterate dequeueItem n times, collecting the items returned, and stop
at the first call that returns no item, reporting its error. -/
def dequeueSeq (p : Pipeline) (blocking : Bool) :
    Nat → List StrictItem × Option GoErr × Pipeline
  | 0 => ([], none, p)
  | n + 1 =>
      let r := dequeueItem p blocking
      match r.item with
      | none => ([], r.err, r.state)
      | some x =>
          let rec3 := dequeueSeq r.state blocking n
          (x :: rec3.1, rec3.2.1, rec3.2.2)

/-- The processor-chain loop of processItem: run processors in order and
stop at the first failure. -/
def runProcessors (ps : List (StrictItem → Option GoErr)) (it : StrictItem) :
    Option GoErr :=
  match ps with
  | [] => none
  | f :: rest =>
      match f it with
      | some e => some e
      | none => runProcessors rest it

/-- The processing error computed by processItem: the single processor
when one is set, otherwise the processor chain.  This depends only on
the processor fields, never on the queue or stats. -/
def itemProcessErr (p : Pipeline) (it : StrictItem) : Option GoErr :=
  match p.processor with
  | some f => f it
  | none => if p.processors.length > 0 then runProcessors p.processors it
            else none

/-- Result of processItem. -/
structure ProcessResult where
  err : Option GoErr
  state : Pipeline
  events : List PEvent

/-- processItem (ItemPipeline.go lines 294-334): run the configured
processor (or the processor chain, stopping at the first failure),
increment the processed counter, increment the failed counter on
failure, fold the measured duration into the running average (the
duration is an environment input here), and fire the on-processed
callback with the item and the resulting error. -/
def processItem (p : Pipeline) (it : StrictItem) (duration : Nat) :
    ProcessResult :=
  let processErr := itemProcessErr p it
  let n := p.stats.totalProcessed + 1
  let failed :=
    p.stats.totalFailed + (if processErr.isSome then 1 else 0)
  let avg :=
    if n = 1 then duration
    else (p.stats.avgProcessTime * (n - 1) + duration) / n
  { err := processErr
    state :=
      { p with
        stats :=
          { p.stats with
            totalProcessed := n
            totalFailed := failed
            avgProcessTime := avg } }
    events :=
      if p.callbacks.onItemProcessed then [PEvent.itemProcessed it processErr]
      else [] }

/-- The loop body of Flush, with fuel.  Flush supplies one more unit of
fuel than the queue is long, which the loop can never exhaust: every
iteration that continues has consumed one queued item.  durs supplies
the processing duration of each successive item. -/
def flushLoop : Nat → Pipeline → Option GoErr → List PEvent → List Nat →
    Option GoErr × Pipeline × List PEvent
  | 0, p, lastErr, acc, _ => (lastErr, p, acc)
  | fuel + 1, p, lastErr, acc, durs =>
      let r := TryDequeueItem p
      match r.err with
      | some e => (some e, r.state, acc ++ r.events)
      | none =>
          match r.item with
          | none => (lastErr, r.state, acc ++ r.events)
          | some it =>
              let pr := processItem r.state it (durs.headD 0)
              flushLoop fuel pr.state
                (match pr.err with | some e => some e | none => lastErr)
                (acc ++ r.events ++ pr.events) durs.tail

/-- Flush (ItemPipeline.go lines 337-358): repeatedly try-dequeue and
process until the queue is empty or a dequeue error occurs; processing
errors are recorded without stopping the loop, a dequeue error stops it
at once, and the last error encountered is returned. -/
def Flush (p : Pipeline) (durs : List Nat) :
    Option GoErr × Pipeline × List PEvent :=
  flushLoop (p.queue.length + 1) p none [] durs

/-- The last processing error over the queued items of an open pipeline,
in FIFO order: what Flush reports when no dequeue error occurs. -/
def lastProcErr (p : Pipeline) : Option GoErr :=
  p.queue.foldl
    (fun acc it =>
      match itemProcessErr p it with
      | some e => some e
      | none => acc)
    none

/-- Request (pkg/httpc/request.go), reduced to the fields the verified
claims inspect; the bound continuation is modelled by the flag
hasCallback (a Go function pointer being nil or set). -/
structure Request where
  url : String
  hasCallback : Bool
deriving DecidableEq

/-- Response (pkg/httpc), reduced to the fields the verified claims
inspect. -/
structure Response where
  url : String
  status : Int
deriving DecidableEq

/-- A middleware object as Register sees it: which of the three
capability interfaces its dynamic type implements (the Go type
assertions), its reflected type name (fmt %T), and its behaviour.
Request and response interceptors may rewrite their argument and may
fail; the exception interceptor reports (handled, newErr). -/
structure Middleware where
  typeName : String
  hasRequest : Bool
  hasResponse : Bool
  hasException : Bool
  processRequest : Request → Request × Option GoErr
  processResponse : Response → Response × Option GoErr
  processException : Option GoErr → Bool × Option GoErr

/-- MiddlewareConfig (MiddlewareManager.go). -/
structure MwConfig where
  name : String
  priority : Int
  enabled : Bool
  group : String
deriving DecidableEq

/-- DecoratedMiddleware (MiddlewareManager.go); the Processor field of
the source is the middleware itself, kept once here. -/
structure DecoratedMiddleware where
  id : String
  config : MwConfig
  mw : Middleware

/-- MiddlewareManager (MiddlewareManager.go); the disabledGroups map is
the list of group names currently disabled. -/
structure MiddlewareManager where
  requestChain : List DecoratedMiddleware
  responseChain : List DecoratedMiddleware
  exceptionChain : List DecoratedMiddleware
  middlewareMap : List (String × DecoratedMiddleware)
  disabledGroups : List String

/-- NewMiddlewareManager (MiddlewareManager.go). -/
def NewMiddlewareManager : MiddlewareManager :=
  { requestChain := [], responseChain := [], exceptionChain := []
    middlewareMap := [], disabledGroups := [] }

/-- generateID (MiddlewareManager.go). -/
def generateID (name : String) : String := "mw-" ++ name

/-- The config resolution of Register: the zero MiddlewareConfig when
none is passed, and the reflected type name when the name is empty. -/
def resolveConfig (mw : Middleware) (config : Option MwConfig) : MwConfig :=
  let cfg := config.getD { name := "", priority := 0, enabled := false, group := "" }
  if cfg.name = "" then { cfg with name := mw.typeName } else cfg

/-- The DecoratedMiddleware Register builds. -/
def decorate (mw : Middleware) (config : Option MwConfig) :
    DecoratedMiddleware :=
  let cfg := resolveConfig mw config
  { id := generateID cfg.name, config := cfg, mw := mw }

/-- Insertion step of the descending-priority sort. -/
def insertDesc (dm : DecoratedMiddleware) :
    List DecoratedMiddleware → List DecoratedMiddleware
  | [] => [dm]
  | x :: xs =>
      if dm.config.priority > x.config.priority then dm :: x :: xs
      else x :: insertDesc dm xs

/-- Insertion step of the ascending-priority sort. -/
def insertAsc (dm : DecoratedMiddleware) :
    List DecoratedMiddleware → List DecoratedMiddleware
  | [] => [dm]
  | x :: xs =>
      if dm.config.priority < x.config.priority then dm :: x :: xs
      else x :: insertAsc dm xs

/-- sortRequestChain (MiddlewareManager.go): sort descending by
priority.  The source uses sort.Slice, which fixes no order between
equal priorities; this deterministic sort agrees with it wherever the
priorities are distinct. -/
def sortRequestChain (chain : List DecoratedMiddleware) :
    List DecoratedMiddleware :=
  chain.foldr insertDesc []

/-- sortResponseChain (MiddlewareManager.go): sort ascending by
priority, under the same caveat on equal priorities. -/
def sortResponseChain (chain : List DecoratedMiddleware) :
    List DecoratedMiddleware :=
  chain.foldr insertAsc []

/-- Register (MiddlewareManager.go lines 64-102): resolve the config,
append the decorated middleware to each chain whose interface its type
implements (re-sorting the request and response chains, the exception
chain staying in registration order) and record it in the id map. -/
def Register (mm : MiddlewareManager) (mw : Middleware)
    (config : Option MwConfig) : MiddlewareManager :=
  let dm := decorate mw config
  let mm1 :=
    if mw.hasRequest then
      { mm with requestChain := sortRequestChain (mm.requestChain ++ [dm]) }
    else mm
  let mm2 :=
    if mw.hasResponse then
      { mm1 with
        responseChain := sortResponseChain (mm1.responseChain ++ [dm]) }
    else mm1
  let mm3 :=
    if mw.hasException then
      { mm2 with exceptionChain := mm2.exceptionChain ++ [dm] }
    else mm2
  { mm3 with middlewareMap := mm3.middlewareMap ++ [(dm.id, dm)] }

/-- getEnabledMiddlewares (MiddlewareManager.go lines 140-148): keep the
entries whose enabled flag is set and whose group is not disabled. -/
def getEnabledMiddlewares (mm : MiddlewareManager)
    (chain : List DecoratedMiddleware) : List DecoratedMiddleware :=
  chain.filter
    (fun dm => dm.config.enabled && !(mm.disabledGroups.contains dm.config.group))

/-- EnableGroup (MiddlewareManager.go). -/
def EnableGroup (mm : MiddlewareManager) (group : String) :
    MiddlewareManager :=
  { mm with disabledGroups := mm.disabledGroups.filter (fun g => g ≠ group) }

/-- DisableGroup (MiddlewareManager.go). -/
def DisableGroup (mm : MiddlewareManager) (group : String) :
    MiddlewareManager :=
  { mm with disabledGroups := mm.disabledGroups ++ [group] }

/-- The dispatch loop of ProcessRequest over an already-filtered chain,
recording the name of every middleware actually invoked: stop at the
first error, wrapped with the failing middleware's name. -/
def processRequestChain (mms : List DecoratedMiddleware) (req : Request)
    (trace : List String) : Option GoErr × Request × List String :=
  match mms with
  | [] => (none, req, trace)
  | dm :: rest =>
      if dm.mw.hasRequest then
        let r := dm.mw.processRequest req
        match r.2 with
        | some e =>
            (some (GoErr.middlewareFailed dm.config.name e), r.1,
              trace ++ [dm.config.name])
        | none => processRequestChain rest r.1 (trace ++ [dm.config.name])
      else processRequestChain rest req trace

/-- ProcessRequest (MiddlewareManager.go lines 104-113): run the enabled
request chain in chain order. -/
def ProcessRequest (mm : MiddlewareManager) (req : Request) :
    Option GoErr × Request × List String :=
  processRequestChain (getEnabledMiddlewares mm mm.requestChain) req []

/-- The dispatch loop of ProcessResponse, same short-circuit rule. -/
def processResponseChain (mms : List DecoratedMiddleware) (resp : Response)
    (trace : List String) : Option GoErr × Response × List String :=
  match mms with
  | [] => (none, resp, trace)
  | dm :: rest =>
      if dm.mw.hasResponse then
        let r := dm.mw.processResponse resp
        match r.2 with
        | some e =>
            (some (GoErr.middlewareFailed dm.config.name e), r.1,
              trace ++ [dm.config.name])
        | none => processResponseChain rest r.1 (trace ++ [dm.config.name])
      else processResponseChain rest resp trace

/-- ProcessResponse (MiddlewareManager.go lines 115-126): run the
enabled response chain from its last entry down to its first. -/
def ProcessResponse (mm : MiddlewareManager) (resp : Response) :
    Option GoErr × Response × List String :=
  processResponseChain
    (getEnabledMiddlewares mm mm.responseChain).reverse resp []

/-- The dispatch loop of ProcessException, recording the name of every
middleware actually consulted: the first one reporting handled supplies
the returned error and stops the chain. -/
def processExceptionChain (mms : List DecoratedMiddleware)
    (e : Option GoErr) (trace : List String) :
    Option GoErr × List String :=
  match mms with
  | [] => (e, trace)
  | dm :: rest =>
      if dm.mw.hasException then
        let r := dm.mw.processException e
        if r.1 then (r.2, trace ++ [dm.config.name])
        else processExceptionChain rest e (trace ++ [dm.config.name])
      else processExceptionChain rest e trace

/-- ProcessException (MiddlewareManager.go lines 128-137): run the
enabled exception chain in chain order; an unhandled error passes
through unchanged. -/
def ProcessException (mm : MiddlewareManager) (e : Option GoErr) :
    Option GoErr × List String :=
  processExceptionChain (getEnabledMiddlewares mm mm.exceptionChain) e []

/-- The first enabled entry of a chain that implements the exception
interface and reports handled for e, paired with the error it supplies:
the entry the claim expects to settle ProcessException. -/
def firstHandler (mms : List DecoratedMiddleware) (e : Option GoErr) :
    Option (DecoratedMiddleware × Option GoErr) :=
  match mms with
  | [] => none
  | dm :: rest =>
      if dm.mw.hasException then
        let r := dm.mw.processException e
        if r.1 then some (dm, r.2) else firstHandler rest e
      else firstHandler rest e

/-- NextRequest of the core Scheduler: nil when empty, else the oldest
queued request; the model returns the remaining queue alongside. -/
def NextRequest (sched : List Request) : Option Request × List Request :=
  match sched with
  | [] => (none, [])
  | r :: rest => (some r, rest)

/-- isAllWorkDone (core engine): both the Scheduler and the Item
Pipeline are empty. -/
def isAllWorkDone (sched : List Request) (pipelineEmpty : Bool) : Bool :=
  sched.isEmpty && pipelineEmpty

/-- What one worker-loop iteration does after polling the Scheduler:
exit the loop, or proceed to fetch with the polled request (present or
absent). -/
inductive WorkerAction where
  | exitLoop
  | fetchReq : Option Request → WorkerAction
deriving DecidableEq

/-- One iteration of the worker loop (core engine worker): poll the
Scheduler; when the poll yields nil and both the Scheduler and the Item
Pipeline are empty, return; otherwise fall through to the fetch of the
polled request.  The result pairs the action taken with the Scheduler
contents left behind. -/
def workerStep (sched : List Request) (pipelineEmpty : Bool) :
    WorkerAction × List Request :=
  let r := NextRequest sched
  if r.1.isNone && isAllWorkDone r.2 pipelineEmpty then
    (WorkerAction.exitLoop, r.2)
  else (WorkerAction.fetchReq r.1, r.2)

/-- The worker's access to req.Callback on the request it fetched: on a
nil request the Go field read dereferences a nil pointer, a runtime
panic, modelled as none; on a present request it reads the callback
flag. -/
def derefCallback (req : Option Request) : Option Bool :=
  match req with
  | none => none
  | some r => some r.hasCallback

/-- Helper: a value stored by mapSet is found by mapGet. -/
theorem mapGet_mapSet (m : List (String × GoVal)) (key : String) (v : GoVal) :
    mapGet (mapSet m key v) key = some v := by
  induction m with
  | nil => simp [mapSet, mapGet]
  | cons kv rest ih =>
      by_cases h : kv.1 = key
      · simp [mapSet, mapGet, h]
      · simp [mapSet, mapGet, h, ih]

/-- Helper: filtersAccept is false exactly when some registered filter
rejects the item. -/
theorem filtersAccept_eq_false_iff (fs : List (StrictItem → Bool))
    (it : StrictItem) :
    filtersAccept fs it = false ↔ ∃ f ∈ fs, f it = false := by
  induction fs with
  | nil => simp [filtersAccept]
  | cons f rest ih =>
      cases hf : f it with
      | true => simp [filtersAccept, hf, ih]
      | false => simp [filtersAccept, hf]

/-- C9: for every StrictItem and every key outside its allow-list,
Set(key, value) returns a non-nil error and leaves the item entirely
unchanged, while for every key in the allow-list Set stores the value
(subsequently visible through Get) and returns nil, keeping the
allow-list fixed.  The allow-list of an item is the one fixed by
NewStrictItem at construction, which no operation alters. -/
theorem strictItem_set_allowlist (s : StrictItem) (key : String)
    (v : GoVal) :
    (key ∉ s.allowed →
      (s.set key v).1.isSome = true ∧ (s.set key v).2 = s) ∧
    (key ∈ s.allowed →
      (s.set key v).1 = none ∧
      (s.set key v).2.get key = some v ∧
      (s.set key v).2.allowed = s.allowed) := by
  constructor
  · intro h
    simp [StrictItem.set, h]
  · intro h
    simp [StrictItem.set, h, StrictItem.get, mapGet_mapSet]

/-- Witness for C9 at a concrete item: a write to a key outside the
allow-list errors and changes nothing, a write to an allowed key
succeeds. -/
theorem strictItem_set_allowlist_witness :
    ((NewStrictItem ["title"] 0).set "url" (GoVal.vstr "x")).1.isSome
        = true ∧
    ((NewStrictItem ["title"] 0).set "url" (GoVal.vstr "x")).2
        = NewStrictItem ["title"] 0 ∧
    ((NewStrictItem ["title"] 0).set "title" (GoVal.vstr "y")).1 = none :=
  ⟨((strictItem_set_allowlist (NewStrictItem ["title"] 0) "url"
      (GoVal.vstr "x")).1 (by decide)).1,
   ((strictItem_set_allowlist (NewStrictItem ["title"] 0) "url"
      (GoVal.vstr "x")).1 (by decide)).2,
   ((strictItem_set_allowlist (NewStrictItem ["title"] 0) "title"
      (GoVal.vstr "y")).2 (by decide)).1⟩

/-- C5 (code bug): when the Scheduler yields no request and both the
Scheduler and the Item Pipeline are empty, the worker exits — but when
the Scheduler yields no request while the Item Pipeline is non-empty,
the worker does not go back to polling: it falls through and proceeds
to fetch with the absent request, after which reading req.Callback
dereferences a nil pointer (modelled by derefCallback returning none),
a runtime panic. -/
theorem worker_nil_request_fallthrough :
    (workerStep [] true).1 = WorkerAction.exitLoop ∧
    (workerStep [] false).1 = WorkerAction.fetchReq none ∧
    derefCallback none = none := by
  exact ⟨rfl, rfl, rfl⟩

/-- C1: both the blocking and the non-blocking enqueue run the same
pre-admission checks in the same order: a closed pipeline fails with
ErrPipelineClosed whatever the item; an open pipeline rejects a nil
item with ErrItemInvalid; then (whenever the capacity section admits
the call through, i.e. the queue is below a positive MaxSize bound)
the validators run in registration order — firstValidationError is
exactly that loop — and the first validator failure is surfaced wrapped
as a validation failure with the queue unchanged; if all validators
pass and some filter rejects the item (filtersAccept is the
registration-order filter loop, and it is false exactly when some
filter rejects), the call returns no error and the queue is unchanged. -/
theorem enqueue_preadmission_checks (p : Pipeline) (it : StrictItem)
    (b : Bool) (wakes : List Wake) :
    (p.closed = true → ∀ item,
      (enqueueItem p item b wakes).err = some GoErr.pipelineClosed ∧
      (enqueueItem p item b wakes).state.queue = p.queue) ∧
    (p.closed = false →
      (enqueueItem p none b wakes).err = some GoErr.itemInvalid ∧
      (enqueueItem p none b wakes).state.queue = p.queue) ∧
    (p.closed = false →
      ¬(0 < p.config.maxSize ∧ p.config.maxSize ≤ p.queue.length) →
      ∀ e, firstValidationError p.validators it = some e →
        (enqueueItem p (some it) b wakes).err
            = some (GoErr.validationFailed e) ∧
        (enqueueItem p (some it) b wakes).state.queue = p.queue) ∧
    (p.closed = false →
      ¬(0 < p.config.maxSize ∧ p.config.maxSize ≤ p.queue.length) →
      firstValidationError p.validators it = none →
      filtersAccept p.filters it = false →
        (enqueueItem p (some it) b wakes).err = none ∧
        (enqueueItem p (some it) b wakes).state.queue = p.queue) := by
  refine ⟨?_, ?_, ?_, ?_⟩
  · intro hcl item
    simp [enqueueItem, hcl]
  · intro hcl
    simp [enqueueItem, hcl]
  · intro hcl hspace e hval
    simp [enqueueItem, hcl, hspace, admitItem, hval]
  · intro hcl hspace hval hfil
    simp [enqueueItem, hcl, hspace, admitItem, hval, hfil]

/-- Witness for C1 at concrete inputs: a closed pipeline rejects, an
open one rejects nil, a failing validator is surfaced wrapped with the
queue unchanged, and a rejecting filter drops silently with the queue
unchanged. -/
theorem enqueue_preadmission_checks_witness :
    ((enqueueItem { NewItemPipeline 0 0 0 with closed := true }
        (some (NewStrictItem [] 0)) true []).err
      = some GoErr.pipelineClosed) ∧
    ((enqueueItem (NewItemPipeline 0 0 0) none false []).err
      = some GoErr.itemInvalid) ∧
    ((enqueueItem
        { NewItemPipeline 0 0 0 with
          validators := [fun _ => some (GoErr.msg "bad")] }
        (some (NewStrictItem [] 0)) true []).err
      = some (GoErr.validationFailed (GoErr.msg "bad"))) ∧
    ((enqueueItem
        { NewItemPipeline 0 0 0 with filters := [fun _ => false] }
        (some (NewStrictItem [] 0)) false []).err = none) ∧
    ((enqueueItem
        { NewItemPipeline 0 0 0 with filters := [fun _ => false] }
        (some (NewStrictItem [] 0)) false []).state.queue = []) :=
  ⟨((enqueue_preadmission_checks
      { NewItemPipeline 0 0 0 with closed := true }
      (NewStrictItem [] 0) true []).1 rfl (some (NewStrictItem [] 0))).1,
   ((enqueue_preadmission_checks (NewItemPipeline 0 0 0)
      (NewStrictItem [] 0) false []).2.1 rfl).1,
   ((enqueue_preadmission_checks
      { NewItemPipeline 0 0 0 with
        validators := [fun _ => some (GoErr.msg "bad")] }
      (NewStrictItem [] 0) true []).2.2.1 rfl (by decide)
      (GoErr.msg "bad") rfl).1,
   ((enqueue_preadmission_checks
      { NewItemPipeline 0 0 0 with filters := [fun _ => false] }
      (NewStrictItem [] 0) false []).2.2.2 rfl (by decide) rfl rfl).1,
   ((enqueue_preadmission_checks
      { NewItemPipeline 0 0 0 with filters := [fun _ => false] }
      (NewStrictItem [] 0) false []).2.2.2 rfl (by decide) rfl rfl).2⟩

/-- C7: every dispatch of processItem increments the processed counter
by exactly one; the failed counter is incremented exactly when a
processor returned an error; the running average is updated as
(oldAvg * (n - 1) + newSample) / n with n the new processed count (the
source's n = 1 special case agrees with the formula); the error is the
single processor's when one is configured and the chain's first failure
otherwise; and the on-processed callback, when registered, fires with
the item and the (possibly nil) error. -/
theorem processItem_accounting (p : Pipeline) (it : StrictItem) (d : Nat) :
    (processItem p it d).state.stats.totalProcessed
        = p.stats.totalProcessed + 1 ∧
    ((processItem p it d).err.isSome = true →
      (processItem p it d).state.stats.totalFailed
        = p.stats.totalFailed + 1) ∧
    ((processItem p it d).err = none →
      (processItem p it d).state.stats.totalFailed = p.stats.totalFailed) ∧
    (processItem p it d).state.stats.avgProcessTime
        = (p.stats.avgProcessTime * (p.stats.totalProcessed + 1 - 1) + d)
            / (p.stats.totalProcessed + 1) ∧
    (∀ f, p.processor = some f → (processItem p it d).err = f it) ∧
    (p.processor = none →
      (processItem p it d).err = runProcessors p.processors it) ∧
    (p.callbacks.onItemProcessed = true →
      (processItem p it d).events
        = [PEvent.itemProcessed it ((processItem p it d).err)]) := by
  refine ⟨by simp [processItem], ?_, ?_, ?_, ?_, ?_, ?_⟩
  · intro h
    simp only [processItem] at h ⊢
    simp [h]
  · intro h
    simp only [processItem] at h ⊢
    simp [h]
  · by_cases h0 : p.stats.totalProcessed = 0
    · simp [processItem, h0]
    · have hne : p.stats.totalProcessed + 1 ≠ 1 := by omega
      simp [processItem, hne]
  · intro f hf
    simp [processItem, itemProcessErr, hf]
  · intro hf
    cases hps : p.processors with
    | nil => simp [processItem, itemProcessErr, hf, hps, runProcessors]
    | cons g rest => simp [processItem, itemProcessErr, hf, hps]
  · intro hc
    simp [processItem, hc]

/-- Sample pipeline for the C7 witness: a processor chain whose only
processor always fails, with the on-processed callback registered. -/
def procPipe : Pipeline :=
  { NewItemPipeline 0 0 0 with
    processors := [fun _ => some (GoErr.msg "fail")]
    callbacks :=
      { onItemEnqueued := false, onItemDequeued := false
        onItemProcessed := true, onPipelineFull := false
        onPipelineEmpty := false } }

/-- Witness for C7 at a concrete dispatch: the failing chain increments
the failed counter and the registered callback fires with the item and
the error. -/
theorem processItem_accounting_witness :
    (processItem procPipe (NewStrictItem [] 0) 4).err.isSome = true ∧
    (processItem procPipe (NewStrictItem [] 0) 4).state.stats.totalFailed
        = procPipe.stats.totalFailed + 1 ∧
    (processItem procPipe (NewStrictItem [] 0) 4).events
        = [PEvent.itemProcessed (NewStrictItem [] 0)
            ((processItem procPipe (NewStrictItem [] 0) 4).err)] :=
  ⟨rfl,
   (processItem_accounting procPipe (NewStrictItem [] 0) 4).2.1 rfl,
   (processItem_accounting procPipe (NewStrictItem [] 0) 4).2.2.2.2.2.2 rfl⟩

/-- Helper: the pipeline Close returns always has its closed flag set. -/
theorem close_state_closed (p : Pipeline) : (Close p).state.closed = true := by
  by_cases h : p.closed = true
  · simp [Close, h]
  · simp [Close, h]

/-- Helper: closing an already-closed pipeline is a complete no-op. -/
theorem close_of_closed (c : Pipeline) (hc : c.closed = true) :
    Close c = { err := none, state := c, events := [] } := by
  simp [Close, hc]

/-- Helper: the successor step of dequeueSeq, spelled out. -/
theorem dequeueSeq_succ (p : Pipeline) (b : Bool) (n : Nat) :
    dequeueSeq p b (n + 1)
      = match (dequeueItem p b).item with
        | none => ([], (dequeueItem p b).err, (dequeueItem p b).state)
        | some x =>
            (x :: (dequeueSeq (dequeueItem p b).state b n).1,
             (dequeueSeq (dequeueItem p b).state b n).2.1,
             (dequeueSeq (dequeueItem p b).state b n).2.2) := rfl

/-- Helper: dequeue on a non-empty queue pops the head, reports no
error and keeps the closed flag. -/
theorem dequeueItem_cons (c : Pipeline) (b : Bool) (x : StrictItem)
    (rest : List StrictItem) (hq : c.queue = x :: rest) :
    (dequeueItem c b).item = some x ∧
    (dequeueItem c b).err = none ∧
    (dequeueItem c b).state.queue = rest ∧
    (dequeueItem c b).state.closed = c.closed := by
  simp [dequeueItem, hq]

/-- Helper: on a closed pipeline, iterating dequeue one step past the
queue length returns exactly the buffered items in FIFO order and then
ErrPipelineClosed. -/
theorem dequeueSeq_closed_drains (b : Bool) :
    ∀ (q : List StrictItem) (c : Pipeline), c.closed = true → c.queue = q →
      (dequeueSeq c b (q.length + 1)).1 = q ∧
      (dequeueSeq c b (q.length + 1)).2.1 = some GoErr.pipelineClosed := by
  intro q
  induction q with
  | nil =>
      intro c hc hq
      simp [dequeueSeq, dequeueItem, hc, hq]
  | cons x rest ih =>
      intro c hc hq
      have hdq := dequeueItem_cons c b x rest hq
      have hrec := ih (dequeueItem c b).state (hdq.2.2.2.trans hc) hdq.2.2.1
      rw [List.length_cons, dequeueSeq_succ, hdq.1]
      simpa using hrec

/-- C4: Close is idempotent — a second Close returns nil, changes
nothing and performs no action; every enqueue attempt on the closed
pipeline (blocking or non-blocking, any item) fails with
ErrPipelineClosed; Close leaves the buffered queue intact, and dequeue
attempts on the closed pipeline return exactly those buffered items in
FIFO order until the queue is empty, after which they fail with
ErrPipelineClosed. -/
theorem close_idempotent_and_drain (p : Pipeline) :
    (Close p).err = none ∧
    (Close (Close p).state).err = none ∧
    (Close (Close p).state).state = (Close p).state ∧
    (Close (Close p).state).events = [] ∧
    (∀ item b w, (enqueueItem (Close p).state item b w).err
        = some GoErr.pipelineClosed) ∧
    (Close p).state.queue = p.queue ∧
    (∀ b, (dequeueSeq (Close p).state b (p.queue.length + 1)).1 = p.queue ∧
      (dequeueSeq (Close p).state b (p.queue.length + 1)).2.1
        = some GoErr.pipelineClosed) := by
  have hcl := close_state_closed p
  have hqueue : (Close p).state.queue = p.queue := by
    by_cases h : p.closed = true
    · simp [Close, h]
    · simp [Close, h]
  have hagain := close_of_closed (Close p).state hcl
  refine ⟨?_, ?_, ?_, ?_, ?_, hqueue, ?_⟩
  · by_cases h : p.closed = true
    · simp [Close, h]
    · simp [Close, h]
  · rw [hagain]
  · rw [hagain]
  · rw [hagain]
  · intro item b w
    simp [enqueueItem, hcl]
  · intro b
    exact dequeueSeq_closed_drains b p.queue (Close p).state hcl hqueue

/-- Helper: dequeue leaves the processor configuration untouched. -/
theorem dequeueItem_preserves_procs (c : Pipeline) (b : Bool) :
    (dequeueItem c b).state.processor = c.processor ∧
    (dequeueItem c b).state.processors = c.processors := by
  unfold dequeueItem
  split
  · exact ⟨rfl, rfl⟩
  · split
    · split <;> exact ⟨rfl, rfl⟩
    · exact ⟨rfl, rfl⟩

/-- Helper: processItem leaves the processing error of later items
unchanged (it only touches the stats). -/
theorem itemProcessErr_processItem (s : Pipeline) (x it : StrictItem)
    (d : Nat) :
    itemProcessErr (processItem s x d).state it = itemProcessErr s it := rfl

/-- Helper: the error processItem reports is itemProcessErr. -/
theorem processItem_err (s : Pipeline) (x : StrictItem) (d : Nat) :
    (processItem s x d).err = itemProcessErr s x := rfl

/-- Helper: dequeue leaves the processing error of items unchanged. -/
theorem itemProcessErr_dequeue (c : Pipeline) (b : Bool) (it : StrictItem) :
    itemProcessErr (dequeueItem c b).state it = itemProcessErr c it := by
  have h := dequeueItem_preserves_procs c b
  simp only [itemProcessErr, h.1, h.2]

/-- Helper: the successor step of flushLoop, spelled out. -/
theorem flushLoop_succ (fuel : Nat) (p : Pipeline) (lastErr : Option GoErr)
    (acc : List PEvent) (ds : List Nat) :
    flushLoop (fuel + 1) p lastErr acc ds
      = match (TryDequeueItem p).err with
        | some e =>
            (some e, (TryDequeueItem p).state,
              acc ++ (TryDequeueItem p).events)
        | none =>
            match (TryDequeueItem p).item with
            | none =>
                (lastErr, (TryDequeueItem p).state,
                  acc ++ (TryDequeueItem p).events)
            | some it =>
                flushLoop fuel
                  (processItem (TryDequeueItem p).state it
                    (ds.headD 0)).state
                  (match (processItem (TryDequeueItem p).state it
                      (ds.headD 0)).err with
                   | some e => some e
                   | none => lastErr)
                  (acc ++ (TryDequeueItem p).events ++
                    (processItem (TryDequeueItem p).state it
                      (ds.headD 0)).events)
                  ds.tail := rfl

/-- Helper: the state flushLoop reaches is drained, and the error it
reports is the dequeue error on a closed pipeline and the fold of the
processing errors, last failure winning, on an open one. -/
theorem flushLoop_spec :
    ∀ (q : List StrictItem) (p : Pipeline) (lastErr : Option GoErr)
      (acc : List PEvent) (ds : List Nat), p.queue = q →
      (flushLoop (q.length + 1) p lastErr acc ds).2.1.queue = [] ∧
      (p.closed = false →
        (flushLoop (q.length + 1) p lastErr acc ds).1 =
          q.foldl
            (fun a it =>
              match itemProcessErr p it with
              | some e => some e
              | none => a) lastErr) ∧
      (p.closed = true →
        (flushLoop (q.length + 1) p lastErr acc ds).1
          = some GoErr.pipelineClosed) := by
  intro q
  induction q with
  | nil =>
      intro p lastErr acc ds hq
      cases hc : p.closed with
      | false => simp [flushLoop, TryDequeueItem, dequeueItem, hq, hc]
      | true => simp [flushLoop, TryDequeueItem, dequeueItem, hq, hc]
  | cons x rest ih =>
      intro p lastErr acc ds hq
      have hdq := dequeueItem_cons p false x rest hq
      have hrec := ih
        (processItem (dequeueItem p false).state x (ds.headD 0)).state
        (match (processItem (dequeueItem p false).state x
            (ds.headD 0)).err with
         | some e => some e
         | none => lastErr)
        (acc ++ (dequeueItem p false).events ++
          (processItem (dequeueItem p false).state x (ds.headD 0)).events)
        ds.tail hdq.2.2.1
      rw [List.length_cons, flushLoop_succ]
      rw [show (TryDequeueItem p).err = none from hdq.2.1,
        show (TryDequeueItem p).item = some x from hdq.1]
      have hc2 : (processItem (dequeueItem p false).state x
          (ds.headD 0)).state.closed = p.closed := hdq.2.2.2
      simp only [TryDequeueItem, processItem_err, itemProcessErr_processItem,
        itemProcessErr_dequeue] at hrec ⊢
      refine ⟨hrec.1, ?_, ?_⟩
      · intro hc
        rw [List.foldl_cons]
        exact hrec.2.1 (hc2.trans hc)
      · intro hc
        exact hrec.2.2 (hc2.trans hc)

/-- C8: Flush drains the queue completely (it stops only at an observed
empty queue or a dequeue error, and the only dequeue error path —
closed and empty — occurs precisely when the queue is already drained);
processing errors do not stop the loop and the last error encountered
is returned: the fold of the per-item processing errors on an open
pipeline (nil when none occurred), and the dequeue error
ErrPipelineClosed on a closed one, which ends the loop at once. -/
theorem flush_drains_returns_last_error (p : Pipeline) (durs : List Nat) :
    (Flush p durs).2.1.queue = [] ∧
    (p.closed = false → (Flush p durs).1 = lastProcErr p) ∧
    (p.closed = true → (Flush p durs).1 = some GoErr.pipelineClosed) := by
  have h := flushLoop_spec p.queue p none [] durs rfl
  exact ⟨h.1, fun hc => h.2.1 hc, fun hc => h.2.2 hc⟩

/-- Helper: the capacity wait loop reports a full-pipeline timeout only
with a positive MaxWaitTime and at a tick strictly past it. -/
theorem enqueueWait_failFull_time (ms mw : Nat) :
    ∀ (wakes : List Wake) (now : Nat) (q : List StrictItem) (t : Nat),
      enqueueWait ms mw now q wakes = WaitOutcome.failFull t →
      0 < mw ∧ mw < t := by
  intro wakes
  induction wakes with
  | nil =>
      intro now q t h
      by_cases hq : ms ≤ q.length
      · by_cases hc : 0 < mw ∧ mw < now
        · rw [enqueueWait] at h
          simp [hq, hc] at h
          exact ⟨hc.1, h ▸ hc.2⟩
        · rw [enqueueWait] at h
          simp [hq, hc] at h
      · rw [enqueueWait] at h
        simp [hq] at h
  | cons w rest ih =>
      intro now q t h
      by_cases hq : ms ≤ q.length
      · by_cases hc : 0 < mw ∧ mw < now
        · rw [enqueueWait] at h
          simp [hq, hc] at h
          exact ⟨hc.1, h ▸ hc.2⟩
        · by_cases hw : w.closed = true
          · rw [enqueueWait] at h
            simp [hq, hc, hw] at h
          · rw [enqueueWait] at h
            simp [hq, hc, hw] at h
            exact ih w.time w.queue t h
      · rw [enqueueWait] at h
        simp [hq] at h

/-- Helper: the capacity wait loop reports a closed pipeline only when
some wake observed the closed flag. -/
theorem enqueueWait_failClosed_wake (ms mw : Nat) :
    ∀ (wakes : List Wake) (now : Nat) (q : List StrictItem) (t : Nat),
      enqueueWait ms mw now q wakes = WaitOutcome.failClosed t →
      ∃ w ∈ wakes, w.closed = true := by
  intro wakes
  induction wakes with
  | nil =>
      intro now q t h
      by_cases hq : ms ≤ q.length
      · by_cases hc : 0 < mw ∧ mw < now
        · rw [enqueueWait] at h
          simp [hq, hc] at h
        · rw [enqueueWait] at h
          simp [hq, hc] at h
      · rw [enqueueWait] at h
        simp [hq] at h
  | cons w rest ih =>
      intro now q t h
      by_cases hq : ms ≤ q.length
      · by_cases hc : 0 < mw ∧ mw < now
        · rw [enqueueWait] at h
          simp [hq, hc] at h
        · by_cases hw : w.closed = true
          · exact ⟨w, by simp, hw⟩
          · rw [enqueueWait] at h
            simp [hq, hc, hw] at h
            obtain ⟨w2, hm, hc2⟩ := ih w.time w.queue t h
            exact ⟨w2, List.mem_cons_of_mem w hm, hc2⟩
      · rw [enqueueWait] at h
        simp [hq] at h

/-- Helper: with the queue held at capacity and no wake closing the
pipeline, a wake strictly past a positive MaxWaitTime makes the wait
loop fail with the timeout. -/
theorem enqueueWait_no_dequeue_timeout (ms mw : Nat) :
    ∀ (wakes : List Wake) (now : Nat) (q : List StrictItem),
      ms ≤ q.length → 0 < mw →
      (∀ w ∈ wakes, ms ≤ w.queue.length ∧ w.closed = false) →
      (mw < now ∨ ∃ w ∈ wakes, mw < w.time) →
      ∃ t, enqueueWait ms mw now q wakes = WaitOutcome.failFull t := by
  intro wakes
  induction wakes with
  | nil =>
      intro now q hq hmw hall hex
      rcases hex with hnow | ⟨w, hw, _⟩
      · exact ⟨now, by rw [enqueueWait]; simp [hq, hmw, hnow]⟩
      · cases hw
  | cons w rest ih =>
      intro now q hq hmw hall hex
      by_cases hnow : mw < now
      · exact ⟨now, by rw [enqueueWait]; simp [hq, hmw, hnow]⟩
      · have hwprop := hall w (by simp)
        have hex2 : mw < w.time ∨ ∃ w2 ∈ rest, mw < w2.time := by
          rcases hex with h | ⟨w2, hw2, ht⟩
          · exact absurd h hnow
          · rcases List.mem_cons.mp hw2 with h2 | hmem
            · exact Or.inl (h2 ▸ ht)
            · exact Or.inr ⟨w2, hmem, ht⟩
        obtain ⟨t, hT⟩ := ih w.time w.queue hwprop.1 hmw
          (fun w2 hw2 => hall w2 (List.mem_cons_of_mem w hw2)) hex2
        refine ⟨t, ?_⟩
        rw [enqueueWait]
        simp [hq, hnow, hwprop.2, hT]

/-- Helper: with the queue held at capacity, no wake closing the
pipeline, and every wake at or before MaxWaitTime, the wait loop is
still parked on the condition variable. -/
theorem enqueueWait_no_timeout_blocks (ms mw : Nat) :
    ∀ (wakes : List Wake) (now : Nat) (q : List StrictItem),
      ms ≤ q.length → now ≤ mw →
      (∀ w ∈ wakes, ms ≤ w.queue.length ∧ w.closed = false ∧ w.time ≤ mw) →
      enqueueWait ms mw now q wakes = WaitOutcome.stillWaiting := by
  intro wakes
  induction wakes with
  | nil =>
      intro now q hq hnow hall
      have hc : ¬ (0 < mw ∧ mw < now) := by omega
      rw [enqueueWait]
      simp [hq, hc]
  | cons w rest ih =>
      intro now q hq hnow hall
      have hc : ¬ (0 < mw ∧ mw < now) := by omega
      have hwprop := hall w (by simp)
      have htail := ih w.time w.queue hwprop.1 hwprop.2.2
        (fun w2 hw2 => hall w2 (List.mem_cons_of_mem w hw2))
      rw [enqueueWait]
      simp [hq, hc, hwprop.2.1, htail]

/-- C3: on a pipeline at capacity (positive MaxSize, size equal to it)
with a positive MaxWaitTime, not closed, a blocking EnqueueItem during
which no dequeue occurs (every wake still sees the full queue and the
open pipeline) returns ErrPipelineFull after the configured wait
elapses and not before: whenever the wait ends at some tick, that tick
is strictly past MaxWaitTime and the error is ErrPipelineFull; a wake
strictly past MaxWaitTime makes it return ErrPipelineFull; and while
every wake is at or before MaxWaitTime the call is still blocked,
having returned nothing. -/
theorem blocking_enqueue_full_timeout (p : Pipeline) (it : StrictItem)
    (wakes : List Wake)
    (hms : 0 < p.config.maxSize)
    (hcap : p.queue.length = p.config.maxSize)
    (hwait : 0 < p.config.maxWaitTime)
    (hclosed : p.closed = false)
    (hnodeq : ∀ w ∈ wakes,
      w.queue.length = p.config.maxSize ∧ w.closed = false) :
    (∀ t, (EnqueueItem p (some it) wakes).retTime = some t →
      (EnqueueItem p (some it) wakes).err = some GoErr.pipelineFull ∧
      p.config.maxWaitTime < t) ∧
    ((∃ w ∈ wakes, p.config.maxWaitTime < w.time) →
      (EnqueueItem p (some it) wakes).err = some GoErr.pipelineFull) ∧
    ((∀ w ∈ wakes, w.time ≤ p.config.maxWaitTime) →
      (EnqueueItem p (some it) wakes).blocked = true ∧
      (EnqueueItem p (some it) wakes).err = none) := by
  have hfull : 0 < p.config.maxSize ∧ p.config.maxSize ≤ p.queue.length :=
    ⟨hms, le_of_eq hcap.symm⟩
  have hallge : ∀ w ∈ wakes,
      p.config.maxSize ≤ w.queue.length ∧ w.closed = false :=
    fun w hw => ⟨le_of_eq (hnodeq w hw).1.symm, (hnodeq w hw).2⟩
  refine ⟨?_, ?_, ?_⟩
  · intro t ht
    cases hW : enqueueWait p.config.maxSize p.config.maxWaitTime 0
        p.queue wakes with
    | proceed t2 q2 =>
        rw [EnqueueItem] at ht
        cases hv : firstValidationError p.validators it with
        | some e =>
            simp [enqueueItem, hclosed, hfull, hW, admitItem, hv] at ht
        | none =>
            cases hf : filtersAccept p.filters it with
            | true =>
                simp [enqueueItem, hclosed, hfull, hW, admitItem, hv, hf]
                  at ht
            | false =>
                simp [enqueueItem, hclosed, hfull, hW, admitItem, hv, hf]
                  at ht
    | failFull t2 =>
        have htm := enqueueWait_failFull_time p.config.maxSize
          p.config.maxWaitTime wakes 0 p.queue t2 hW
        rw [EnqueueItem] at ht ⊢
        simp [enqueueItem, hclosed, hfull, hW] at ht ⊢
        exact ht ▸ htm.2
    | failClosed t2 =>
        obtain ⟨w, hw, hwc⟩ := enqueueWait_failClosed_wake p.config.maxSize
          p.config.maxWaitTime wakes 0 p.queue t2 hW
        exact absurd hwc (by simp [(hnodeq w hw).2])
    | stillWaiting =>
        rw [EnqueueItem] at ht
        simp [enqueueItem, hclosed, hfull, hW] at ht
  · intro hex
    obtain ⟨t, hT⟩ := enqueueWait_no_dequeue_timeout p.config.maxSize
      p.config.maxWaitTime wakes 0 p.queue hfull.2 hwait hallge
      (Or.inr hex)
    rw [EnqueueItem]
    simp [enqueueItem, hclosed, hfull, hT]
  · intro hall
    have hT := enqueueWait_no_timeout_blocks p.config.maxSize
      p.config.maxWaitTime wakes 0 p.queue hfull.2 (Nat.zero_le _)
      (fun w hw => ⟨(hallge w hw).1, (hallge w hw).2, hall w hw⟩)
    rw [EnqueueItem]
    constructor
    · simp [enqueueItem, hclosed, hfull, hT]
    · simp [enqueueItem, hclosed, hfull, hT]

/-- Sample wake trace for the C3 witness: the queue stays at capacity
and the pipeline open, with wakes at ticks 3 and 7 against a
MaxWaitTime of 5. -/
def fullWakes : List Wake :=
  [{ time := 3, queue := [NewStrictItem [] 0], closed := false },
   { time := 7, queue := [NewStrictItem [] 0], closed := false }]

/-- Sample at-capacity pipeline for the C3 witness: MaxSize 1, one
buffered item, MaxWaitTime 5. -/
def fullPipe : Pipeline :=
  { NewItemPipeline 1 5 10 with queue := [NewStrictItem [] 0] }

/-- Witness for C3 at a concrete pipeline: with the wake at tick 7 past
the 5-tick MaxWaitTime, the blocking enqueue fails with
ErrPipelineFull. -/
theorem blocking_enqueue_full_timeout_witness :
    (EnqueueItem fullPipe (some (NewStrictItem [] 1)) fullWakes).err
      = some GoErr.pipelineFull :=
  (blocking_enqueue_full_timeout fullPipe (NewStrictItem [] 1) fullWakes
    (by decide) (by decide) (by decide) rfl (by decide)).2.1
    ⟨{ time := 7, queue := [NewStrictItem [] 0], closed := false },
      by decide, by decide⟩

/-- Sample pipeline for the C8 witness: two buffered items and a chain
whose only processor always fails. -/
def flushPipe : Pipeline :=
  { NewItemPipeline 0 0 0 with
    queue := [NewStrictItem [] 0, NewStrictItem [] 1]
    processors := [fun _ => some (GoErr.msg "fail")] }

/-- Witness for C8 at a concrete pipeline: Flush drains both items and
returns the last processing error, which does not abort the loop. -/
theorem flush_drains_returns_last_error_witness :
    (Flush flushPipe []).2.1.queue = [] ∧
    (Flush flushPipe []).1 = lastProcErr flushPipe ∧
    lastProcErr flushPipe = some (GoErr.msg "fail") :=
  ⟨(flush_drains_returns_last_error flushPipe []).1,
   (flush_drains_returns_last_error flushPipe []).2.1 rfl,
   rfl⟩

/-- Helper: membership in the descending insertion step. -/
theorem mem_insertDesc (dm a : DecoratedMiddleware) :
    ∀ l, a ∈ insertDesc dm l ↔ a = dm ∨ a ∈ l := by
  intro l
  induction l with
  | nil => simp [insertDesc]
  | cons x xs ih =>
      by_cases h : dm.config.priority > x.config.priority
      · simp [insertDesc, h]
      · simp [insertDesc, h, ih]
        tauto

/-- Helper: membership in the ascending insertion step. -/
theorem mem_insertAsc (dm a : DecoratedMiddleware) :
    ∀ l, a ∈ insertAsc dm l ↔ a = dm ∨ a ∈ l := by
  intro l
  induction l with
  | nil => simp [insertAsc]
  | cons x xs ih =>
      by_cases h : dm.config.priority < x.config.priority
      · simp [insertAsc, h]
      · simp [insertAsc, h, ih]
        tauto

/-- Helper: the request-chain sort permutes its input. -/
theorem mem_sortRequestChain (a : DecoratedMiddleware) :
    ∀ l, a ∈ sortRequestChain l ↔ a ∈ l := by
  intro l
  induction l with
  | nil => simp [sortRequestChain]
  | cons x xs ih =>
      have hx : sortRequestChain (x :: xs) = insertDesc x (sortRequestChain xs) :=
        rfl
      rw [hx, mem_insertDesc]
      simp [ih]

/-- Helper: the response-chain sort permutes its input. -/
theorem mem_sortResponseChain (a : DecoratedMiddleware) :
    ∀ l, a ∈ sortResponseChain l ↔ a ∈ l := by
  intro l
  induction l with
  | nil => simp [sortResponseChain]
  | cons x xs ih =>
      have hx : sortResponseChain (x :: xs) = insertAsc x (sortResponseChain xs) :=
        rfl
      rw [hx, mem_insertAsc]
      simp [ih]

/-- Helper: an entry of the enabled sublist is an entry of the chain
whose enabled flag is set and whose group is not disabled. -/
theorem mem_getEnabled (mm : MiddlewareManager)
    (chain : List DecoratedMiddleware) (dm : DecoratedMiddleware)
    (h : dm ∈ getEnabledMiddlewares mm chain) :
    dm ∈ chain ∧ dm.config.enabled = true ∧
    mm.disabledGroups.contains dm.config.group = false := by
  have hmem := List.mem_filter.mp h
  have hb : dm.config.enabled = true ∧
      mm.disabledGroups.contains dm.config.group = false := by
    simpa using hmem.2
  exact ⟨hmem.1, hb.1, hb.2⟩

/-- Helper: every name the request dispatch loop appends to its trace is
the name of some chain entry (or was already in the starting trace). -/
theorem processRequestChain_trace_from_chain :
    ∀ (mms : List DecoratedMiddleware) (req : Request)
      (trace : List String) (n : String),
      n ∈ (processRequestChain mms req trace).2.2 →
      n ∈ trace ∨ ∃ dm ∈ mms, dm.config.name = n := by
  intro mms
  induction mms with
  | nil =>
      intro req trace n h
      simp [processRequestChain] at h
      exact Or.inl h
  | cons dm rest ih =>
      intro req trace n h
      by_cases hx : dm.mw.hasRequest = true
      · cases he : (dm.mw.processRequest req).2 with
        | none =>
            rw [show processRequestChain (dm :: rest) req trace
                = processRequestChain rest (dm.mw.processRequest req).1
                    (trace ++ [dm.config.name]) from by
              simp [processRequestChain, hx, he]] at h
            rcases ih _ _ n h with hin | ⟨dm2, hm, hn⟩
            · rcases List.mem_append.mp hin with h1 | h2
              · exact Or.inl h1
              · exact Or.inr ⟨dm, by simp, by simp at h2; exact h2.symm⟩
            · exact Or.inr ⟨dm2, List.mem_cons_of_mem _ hm, hn⟩
        | some err =>
            rw [show processRequestChain (dm :: rest) req trace
                = (some (GoErr.middlewareFailed dm.config.name err),
                  (dm.mw.processRequest req).1,
                  trace ++ [dm.config.name]) from by
              simp [processRequestChain, hx, he]] at h
            rcases List.mem_append.mp h with h1 | h2
            · exact Or.inl h1
            · exact Or.inr ⟨dm, by simp, by simp at h2; exact h2.symm⟩
      · rw [show processRequestChain (dm :: rest) req trace
            = processRequestChain rest req trace from by
          simp [processRequestChain, hx]] at h
        rcases ih _ _ n h with h1 | ⟨dm2, hm, hn⟩
        · exact Or.inl h1
        · exact Or.inr ⟨dm2, List.mem_cons_of_mem _ hm, hn⟩

/-- Helper: the same for the response dispatch loop. -/
theorem processResponseChain_trace_from_chain :
    ∀ (mms : List DecoratedMiddleware) (resp : Response)
      (trace : List String) (n : String),
      n ∈ (processResponseChain mms resp trace).2.2 →
      n ∈ trace ∨ ∃ dm ∈ mms, dm.config.name = n := by
  intro mms
  induction mms with
  | nil =>
      intro resp trace n h
      simp [processResponseChain] at h
      exact Or.inl h
  | cons dm rest ih =>
      intro resp trace n h
      by_cases hx : dm.mw.hasResponse = true
      · cases he : (dm.mw.processResponse resp).2 with
        | none =>
            rw [show processResponseChain (dm :: rest) resp trace
                = processResponseChain rest (dm.mw.processResponse resp).1
                    (trace ++ [dm.config.name]) from by
              simp [processResponseChain, hx, he]] at h
            rcases ih _ _ n h with hin | ⟨dm2, hm, hn⟩
            · rcases List.mem_append.mp hin with h1 | h2
              · exact Or.inl h1
              · exact Or.inr ⟨dm, by simp, by simp at h2; exact h2.symm⟩
            · exact Or.inr ⟨dm2, List.mem_cons_of_mem _ hm, hn⟩
        | some err =>
            rw [show processResponseChain (dm :: rest) resp trace
                = (some (GoErr.middlewareFailed dm.config.name err),
                  (dm.mw.processResponse resp).1,
                  trace ++ [dm.config.name]) from by
              simp [processResponseChain, hx, he]] at h
            rcases List.mem_append.mp h with h1 | h2
            · exact Or.inl h1
            · exact Or.inr ⟨dm, by simp, by simp at h2; exact h2.symm⟩
      · rw [show processResponseChain (dm :: rest) resp trace
            = processResponseChain rest resp trace from by
          simp [processResponseChain, hx]] at h
        rcases ih _ _ n h with h1 | ⟨dm2, hm, hn⟩
        · exact Or.inl h1
        · exact Or.inr ⟨dm2, List.mem_cons_of_mem _ hm, hn⟩

/-- Helper: the same for the exception dispatch loop. -/
theorem processExceptionChain_trace_from_chain :
    ∀ (mms : List DecoratedMiddleware) (e : Option GoErr)
      (trace : List String) (n : String),
      n ∈ (processExceptionChain mms e trace).2 →
      n ∈ trace ∨ ∃ dm ∈ mms, dm.config.name = n := by
  intro mms
  induction mms with
  | nil =>
      intro e trace n h
      simp [processExceptionChain] at h
      exact Or.inl h
  | cons dm rest ih =>
      intro e trace n h
      by_cases hx : dm.mw.hasException = true
      · by_cases hh : (dm.mw.processException e).1 = true
        · rw [show processExceptionChain (dm :: rest) e trace
              = ((dm.mw.processException e).2,
                trace ++ [dm.config.name]) from by
            simp [processExceptionChain, hx, hh]] at h
          rcases List.mem_append.mp h with h1 | h2
          · exact Or.inl h1
          · exact Or.inr ⟨dm, by simp, by simp at h2; exact h2.symm⟩
        · rw [show processExceptionChain (dm :: rest) e trace
              = processExceptionChain rest e (trace ++ [dm.config.name])
              from by simp [processExceptionChain, hx, hh]] at h
          rcases ih _ _ n h with hin | ⟨dm2, hm, hn⟩
          · rcases List.mem_append.mp hin with h1 | h2
            · exact Or.inl h1
            · exact Or.inr ⟨dm, by simp, by simp at h2; exact h2.symm⟩
          · exact Or.inr ⟨dm2, List.mem_cons_of_mem _ hm, hn⟩
      · rw [show processExceptionChain (dm :: rest) e trace
            = processExceptionChain rest e trace from by
          simp [processExceptionChain, hx]] at h
        rcases ih _ _ n h with h1 | ⟨dm2, hm, hn⟩
        · exact Or.inl h1
        · exact Or.inr ⟨dm2, List.mem_cons_of_mem _ hm, hn⟩

/-- C10: a middleware registered without an explicit config (or with
the Enabled flag left at its false zero value) is stored in every chain
matching its capabilities, yet no dispatch path ever invokes it: the
enabled sublist every dispatch runs over keeps only entries whose
Enabled flag is true and whose group is not disabled, so the registered
entry is in no enabled sublist, and every name a dispatch trace records
belongs to an entry of the enabled sublist. -/
theorem disabled_middleware_stored_not_invoked
    (mm : MiddlewareManager) (mw : Middleware) (cfg : Option MwConfig)
    (req : Request) (resp : Response) (e : Option GoErr)
    (hdis : (resolveConfig mw cfg).enabled = false) :
    (mw.hasRequest = true →
      decorate mw cfg ∈ (Register mm mw cfg).requestChain) ∧
    (mw.hasResponse = true →
      decorate mw cfg ∈ (Register mm mw cfg).responseChain) ∧
    (mw.hasException = true →
      decorate mw cfg ∈ (Register mm mw cfg).exceptionChain) ∧
    (∀ chain, decorate mw cfg ∉
      getEnabledMiddlewares (Register mm mw cfg) chain) ∧
    (∀ chain dm, dm ∈ getEnabledMiddlewares (Register mm mw cfg) chain →
      dm.config.enabled = true ∧
      (Register mm mw cfg).disabledGroups.contains dm.config.group
        = false) ∧
    (∀ n, n ∈ (ProcessRequest (Register mm mw cfg) req).2.2 →
      ∃ dm ∈ getEnabledMiddlewares (Register mm mw cfg)
          (Register mm mw cfg).requestChain, dm.config.name = n) ∧
    (∀ n, n ∈ (ProcessResponse (Register mm mw cfg) resp).2.2 →
      ∃ dm ∈ getEnabledMiddlewares (Register mm mw cfg)
          (Register mm mw cfg).responseChain, dm.config.name = n) ∧
    (∀ n, n ∈ (ProcessException (Register mm mw cfg) e).2 →
      ∃ dm ∈ getEnabledMiddlewares (Register mm mw cfg)
          (Register mm mw cfg).exceptionChain, dm.config.name = n) := by
  refine ⟨?_, ?_, ?_, ?_, ?_, ?_, ?_, ?_⟩
  · intro h
    by_cases h2 : mw.hasResponse = true <;>
      by_cases h3 : mw.hasException = true <;>
        simp [Register, h, h2, h3, mem_sortRequestChain]
  · intro h
    by_cases h1 : mw.hasRequest = true <;>
      by_cases h3 : mw.hasException = true <;>
        simp [Register, h, h1, h3, mem_sortResponseChain]
  · intro h
    by_cases h1 : mw.hasRequest = true <;>
      by_cases h2 : mw.hasResponse = true <;>
        simp [Register, h, h1, h2]
  · intro chain hmem
    have hen := (mem_getEnabled _ _ _ hmem).2.1
    rw [show (decorate mw cfg).config = resolveConfig mw cfg from rfl]
      at hen
    rw [hdis] at hen
    cases hen
  · intro chain dm hmem
    exact ⟨(mem_getEnabled _ _ _ hmem).2.1, (mem_getEnabled _ _ _ hmem).2.2⟩
  · intro n h
    rcases processRequestChain_trace_from_chain _ _ _ n h with h1 | h2
    · cases h1
    · exact h2
  · intro n h
    rcases processResponseChain_trace_from_chain _ _ _ n h with h1 | h2
    · cases h1
    · obtain ⟨dm, hm, hn⟩ := h2
      exact ⟨dm, List.mem_reverse.mp hm, hn⟩
  · intro n h
    rcases processExceptionChain_trace_from_chain _ _ _ n h with h1 | h2
    · cases h1
    · exact h2

/-- A request interceptor that passes the request through unchanged. -/
def passReq : Request → Request × Option GoErr := fun r => (r, none)

/-- A response interceptor that passes the response through unchanged. -/
def passResp : Response → Response × Option GoErr := fun r => (r, none)

/-- An exception interceptor that never handles. -/
def noExc : Option GoErr → Bool × Option GoErr := fun _ => (false, none)

/-- A middleware implementing all three capability interfaces with
pass-through behaviour, for witnesses. -/
def mwAll : Middleware :=
  { typeName := "AllMw", hasRequest := true, hasResponse := true
    hasException := true, processRequest := passReq
    processResponse := passResp, processException := noExc }

/-- Witness for C10 at a concrete registration without a config: the
entry is stored in the request chain yet filtered out of the enabled
sublist. -/
theorem disabled_middleware_stored_not_invoked_witness :
    decorate mwAll none
      ∈ (Register NewMiddlewareManager mwAll none).requestChain ∧
    decorate mwAll none
      ∉ getEnabledMiddlewares (Register NewMiddlewareManager mwAll none)
          (Register NewMiddlewareManager mwAll none).requestChain :=
  ⟨(disabled_middleware_stored_not_invoked NewMiddlewareManager mwAll none
      { url := "u", hasCallback := true } { url := "u", status := 200 }
      none rfl).1 rfl,
   (disabled_middleware_stored_not_invoked NewMiddlewareManager mwAll none
      { url := "u", hasCallback := true } { url := "u", status := 200 }
      none rfl).2.2.2.1
      (Register NewMiddlewareManager mwAll none).requestChain⟩

/-- Register a list of middleware/config pairs in order. -/
def registerAll (mm : MiddlewareManager)
    (l : List (Middleware × Option MwConfig)) : MiddlewareManager :=
  l.foldl (fun m ab => Register m ab.1 ab.2) mm

/-- An exception middleware of the given type name that always handles,
replacing the error with the given one. -/
def excHandler (tn : String) (ne : Option GoErr) : Middleware :=
  { typeName := tn, hasRequest := false, hasResponse := false
    hasException := true, processRequest := passReq
    processResponse := passResp, processException := fun _ => (true, ne) }

/-- Exception middlewares for C6: a low-priority one registered first
and a high-priority one registered second, both always handling. -/
def mmExc : MiddlewareManager :=
  registerAll NewMiddlewareManager
    [(excHandler "ExcLo" (some (GoErr.msg "eLo")),
        some { name := "lo", priority := -100, enabled := true, group := "" }),
     (excHandler "ExcHi" (some (GoErr.msg "eHi")),
        some { name := "hi", priority := 100, enabled := true, group := "" })]

/-- Counterexample for C6: the exception chain is never sorted, so with
an enabled priority-100 handler registered after an enabled
priority-(-100) handler, ProcessException consults the low-priority
handler first (registration order) and returns its error — not the
high-priority handler's, as running the chain in priority order
would. -/
theorem exception_chain_not_priority_ordered :
    (ProcessException mmExc (some (GoErr.msg "boom"))).2 = ["lo"] ∧
    (ProcessException mmExc (some (GoErr.msg "boom"))).1
      = some (GoErr.msg "eLo") ∧
    ¬ (ProcessException mmExc (some (GoErr.msg "boom"))).2 = ["hi"] ∧
    ¬ (ProcessException mmExc (some (GoErr.msg "boom"))).1
      = some (GoErr.msg "eHi") :=
  ⟨rfl, rfl, by decide, by decide⟩

/-- Helper: the exception dispatch loop returns what the first enabled
handling entry supplies, and the original error when none handles. -/
theorem processExceptionChain_firstHandler (e : Option GoErr) :
    ∀ (mms : List DecoratedMiddleware) (trace : List String),
      (firstHandler mms e = none →
        (processExceptionChain mms e trace).1 = e) ∧
      (∀ dm ne, firstHandler mms e = some (dm, ne) →
        (processExceptionChain mms e trace).1 = ne) := by
  intro mms
  induction mms with
  | nil =>
      intro trace
      refine ⟨fun _ => rfl, fun dm ne h => ?_⟩
      simp [firstHandler] at h
  | cons dm rest ih =>
      intro trace
      by_cases hx : dm.mw.hasException = true
      · by_cases hh : (dm.mw.processException e).1 = true
        · have hfh : firstHandler (dm :: rest) e
              = some (dm, (dm.mw.processException e).2) := by
            simp [firstHandler, hx, hh]
          have hpc : processExceptionChain (dm :: rest) e trace
              = ((dm.mw.processException e).2,
                trace ++ [dm.config.name]) := by
            simp [processExceptionChain, hx, hh]
          refine ⟨fun h => ?_, fun dm2 ne h => ?_⟩
          · rw [hfh] at h
            cases h
          · rw [hfh] at h
            have h2 := Option.some.inj h
            rw [hpc]
            exact congrArg Prod.snd h2
        · have hfh : firstHandler (dm :: rest) e = firstHandler rest e := by
            simp [firstHandler, hx, hh]
          have hpc : processExceptionChain (dm :: rest) e trace
              = processExceptionChain rest e (trace ++ [dm.config.name]) := by
            simp [processExceptionChain, hx, hh]
          refine ⟨fun h => ?_, fun dm2 ne h => ?_⟩
          · rw [hpc]
            exact (ih _).1 (hfh ▸ h)
          · rw [hpc]
            exact (ih _).2 dm2 ne (hfh ▸ h)
      · have hfh : firstHandler (dm :: rest) e = firstHandler rest e := by
          simp [firstHandler, hx]
        have hpc : processExceptionChain (dm :: rest) e trace
            = processExceptionChain rest e trace := by
          simp [processExceptionChain, hx]
        refine ⟨fun h => ?_, fun dm2 ne h => ?_⟩
        · rw [hpc]
          exact (ih _).1 (hfh ▸ h)
        · rw [hpc]
          exact (ih _).2 dm2 ne (hfh ▸ h)

/-- C6 as amended: ProcessException runs the enabled exception-chain
plugins in REGISTRATION order (Register appends to the exception chain
without sorting it); the first enabled plugin that reports handled
determines the returned error (possibly transformed, possibly nil) and
no later plugin runs; if no enabled plugin reports handled,
ProcessException returns the original error unchanged. -/
theorem exception_chain_registration_order (mm : MiddlewareManager)
    (e : Option GoErr) :
    (firstHandler (getEnabledMiddlewares mm mm.exceptionChain) e = none →
      (ProcessException mm e).1 = e) ∧
    (∀ dm ne,
      firstHandler (getEnabledMiddlewares mm mm.exceptionChain) e
        = some (dm, ne) →
      (ProcessException mm e).1 = ne) ∧
    (∀ mw cfg, mw.hasException = true →
      (Register mm mw cfg).exceptionChain
        = mm.exceptionChain ++ [decorate mw cfg]) := by
  refine ⟨?_, ?_, ?_⟩
  · intro h
    exact (processExceptionChain_firstHandler e
      (getEnabledMiddlewares mm mm.exceptionChain) []).1 h
  · intro dm ne h
    exact (processExceptionChain_firstHandler e
      (getEnabledMiddlewares mm mm.exceptionChain) []).2 dm ne h
  · intro mw cfg h
    by_cases h1 : mw.hasRequest = true <;>
      by_cases h2 : mw.hasResponse = true <;>
        simp [Register, h, h1, h2]

/-- Witness for C6's amended statement at the concrete two-handler
manager: the first enabled handler in registration order is the
low-priority one and its error is returned. -/
theorem exception_chain_registration_order_witness :
    (ProcessException mmExc (some (GoErr.msg "boom"))).1
      = some (GoErr.msg "eLo") :=
  (exception_chain_registration_order mmExc
    (some (GoErr.msg "boom"))).2.1
    (decorate (excHandler "ExcLo" (some (GoErr.msg "eLo")))
      (some { name := "lo", priority := -100, enabled := true, group := "" }))
    (some (GoErr.msg "eLo")) rfl

/-- A middleware of the given type name implementing request-intercept
and response-intercept with pass-through behaviour. -/
def wrapMw (tn : String) : Middleware :=
  { typeName := tn, hasRequest := true, hasResponse := true
    hasException := false, processRequest := passReq
    processResponse := passResp, processException := noExc }

/-- Three enabled middlewares with priorities 100, 0, -100, each
implementing request-intercept and response-intercept. -/
def mmWrap : MiddlewareManager :=
  registerAll NewMiddlewareManager
    [(wrapMw "A",
        some { name := "hi", priority := 100, enabled := true, group := "" }),
     (wrapMw "B",
        some { name := "mid", priority := 0, enabled := true, group := "" }),
     (wrapMw "C",
        some { name := "lo", priority := -100, enabled := true, group := "" })]

/-- Counterexample for C2: with three enabled middlewares of priorities
100, 0, -100 implementing both interception interfaces, ProcessRequest
invokes them as [100, 0, -100] — but ProcessResponse also invokes them
as [100, 0, -100], not as [-100, 0, 100]: the response chain is sorted
ascending and then traversed in reverse, which restores descending
priority order. -/
theorem response_chain_not_reversed :
    (ProcessRequest mmWrap { url := "u", hasCallback := true }).2.2
      = ["hi", "mid", "lo"] ∧
    (ProcessResponse mmWrap { url := "u", status := 200 }).2.2
      = ["hi", "mid", "lo"] ∧
    ¬ (ProcessResponse mmWrap { url := "u", status := 200 }).2.2
      = ["lo", "mid", "hi"] :=
  ⟨rfl, rfl, by decide⟩

/-- Helper: the request chain after Register. -/
theorem Register_requestChain (mm : MiddlewareManager) (mw : Middleware)
    (cfg : Option MwConfig) :
    (Register mm mw cfg).requestChain
      = if mw.hasRequest = true
        then sortRequestChain (mm.requestChain ++ [decorate mw cfg])
        else mm.requestChain := by
  by_cases h1 : mw.hasRequest = true <;>
    by_cases h2 : mw.hasResponse = true <;>
      by_cases h3 : mw.hasException = true <;>
        simp [Register, h1, h2, h3]

/-- Helper: the response chain after Register. -/
theorem Register_responseChain (mm : MiddlewareManager) (mw : Middleware)
    (cfg : Option MwConfig) :
    (Register mm mw cfg).responseChain
      = if mw.hasResponse = true
        then sortResponseChain (mm.responseChain ++ [decorate mw cfg])
        else mm.responseChain := by
  by_cases h1 : mw.hasRequest = true <;>
    by_cases h2 : mw.hasResponse = true <;>
      by_cases h3 : mw.hasException = true <;>
        simp [Register, h1, h2, h3]

/-- Helper: Register never touches the disabled groups. -/
theorem Register_disabledGroups (mm : MiddlewareManager) (mw : Middleware)
    (cfg : Option MwConfig) :
    (Register mm mw cfg).disabledGroups = mm.disabledGroups := by
  by_cases h1 : mw.hasRequest = true <;>
    by_cases h2 : mw.hasResponse = true <;>
      by_cases h3 : mw.hasException = true <;>
        simp [Register, h1, h2, h3]

/-- Helper: nothing is contained in the empty disabled-group list. -/
theorem contains_nil_str (g : String) :
    ([] : List String).contains g = false := rfl

/-- The six possible registration orders of three middlewares. -/
def threeOrders (a b c : Middleware × Option MwConfig) :
    List (List (Middleware × Option MwConfig)) :=
  [[a, b, c], [a, c, b], [b, a, c], [b, c, a], [c, a, b], [c, b, a]]

/-- C2 as amended: for three middlewares with non-empty names,
priorities 100, 0 and -100, all enabled with no disabled group, each
implementing request-intercept and response-intercept without errors,
registered in any order, ProcessRequest invokes them in the order
[100, 0, -100] and ProcessResponse ALSO invokes them in the order
[100, 0, -100]: the ascending sort of the response chain composed with
its reverse traversal at dispatch time restores descending priority
order, so the plugin that runs first on the request side also runs
first on the response side. -/
theorem middleware_wrap_order
    (m1 m2 m3 : Middleware) (n1 n2 n3 g1 g2 g3 : String)
    (req : Request) (resp : Response)
    (hn1 : n1 ≠ "") (hn2 : n2 ≠ "") (hn3 : n3 ≠ "")
    (h1q : m1.hasRequest = true) (h2q : m2.hasRequest = true)
    (h3q : m3.hasRequest = true)
    (h1p : m1.hasResponse = true) (h2p : m2.hasResponse = true)
    (h3p : m3.hasResponse = true)
    (e1 : ∀ r, (m1.processRequest r).2 = none)
    (e2 : ∀ r, (m2.processRequest r).2 = none)
    (e3 : ∀ r, (m3.processRequest r).2 = none)
    (f1 : ∀ r, (m1.processResponse r).2 = none)
    (f2 : ∀ r, (m2.processResponse r).2 = none)
    (f3 : ∀ r, (m3.processResponse r).2 = none)
    (regs : List (Middleware × Option MwConfig))
    (hperm : regs ∈ threeOrders
      (m1, some { name := n1, priority := 100, enabled := true, group := g1 })
      (m2, some { name := n2, priority := 0, enabled := true, group := g2 })
      (m3, some
        { name := n3, priority := -100, enabled := true, group := g3 })) :
    (ProcessRequest (registerAll NewMiddlewareManager regs) req).2.2
      = [n1, n2, n3] ∧
    (ProcessResponse (registerAll NewMiddlewareManager regs) resp).2.2
      = [n1, n2, n3] := by
  simp only [threeOrders, List.mem_cons, List.not_mem_nil, or_false]
    at hperm
  rcases hperm with h | h | h | h | h | h <;>
    subst h <;>
    norm_num [registerAll, Register_requestChain, Register_responseChain,
      Register_disabledGroups, decorate, resolveConfig, generateID,
      NewMiddlewareManager, sortRequestChain, sortResponseChain,
      insertDesc, insertAsc, getEnabledMiddlewares, contains_nil_str,
      ProcessRequest, ProcessResponse, processRequestChain,
      processResponseChain, hn1, hn2, hn3, h1q, h2q, h3q, h1p, h2p, h3p,
      e1, e2, e3, f1, f2, f3]

/-- Witness for C2's amended statement at three concrete pass-through
middlewares registered in the order 100, 0, -100: both dispatch
directions invoke them as [100, 0, -100]. -/
theorem middleware_wrap_order_witness :
    (ProcessRequest mmWrap { url := "u", hasCallback := true }).2.2
      = ["hi", "mid", "lo"] ∧
    (ProcessResponse mmWrap { url := "u", status := 200 }).2.2
      = ["hi", "mid", "lo"] :=
  middleware_wrap_order (wrapMw "A") (wrapMw "B") (wrapMw "C")
    "hi" "mid" "lo" "" "" ""
    { url := "u", hasCallback := true } { url := "u", status := 200 }
    (by decide) (by decide) (by decide) rfl rfl rfl rfl rfl rfl
    (fun _ => rfl) (fun _ => rfl) (fun _ => rfl)
    (fun _ => rfl) (fun _ => rfl) (fun _ => rfl)
    [(wrapMw "A",
        some { name := "hi", priority := 100, enabled := true, group := "" }),
     (wrapMw "B",
        some { name := "mid", priority := 0, enabled := true, group := "" }),
     (wrapMw "C",
        some { name := "lo", priority := -100, enabled := true, group := "" })]
    (by simp [threeOrders])

end NewDuckSpider
